import Mathlib

/-!
# Verification of the voxel store of 3D-VoxelBuilder

Shallow embedding of the zustand store (`useStore`) and of the geometry
helpers of `VoxelWorld.tsx` / `Voxel.tsx`.  Coordinates are modelled as
exact rationals: every constant appearing in the source (`0.3`, `0.01`,
coordinates of the platform) is an exact decimal, and all comparisons in
the source are either exact (`===`) or tolerance comparisons with
epsilon `0.01`, so the rational model reproduces the JavaScript float
behaviour on every state reachable by the editor.
`Math.round` of JavaScript is `fun q => Int.floor (q + 1/2)`.
-/

namespace VoxelBuilder

/-- A `THREE.Vector3`: an ordered triple of coordinates. -/
structure Pos where
  x : ℚ
  y : ℚ
  z : ℚ
deriving DecidableEq, Repr

/-- A voxel: `{ position: Vector3, color: string }`. -/
structure Voxel where
  position : Pos
  color : String
deriving DecidableEq, Repr

/-- A face: `{ normal: Vector3 }`. -/
structure Face where
  normal : Pos
deriving DecidableEq, Repr

/-- The store state (the fields the mutating operations touch). -/
structure StoreState where
  voxels : List Voxel
  hoveredVoxel : Option Voxel
  selectedFace : Option Face
deriving DecidableEq, Repr

/-- The grid unit `u = 0.3` of the source. -/
def u : ℚ := 3 / 10

/-- JavaScript `Math.round`: round half toward positive infinity. -/
def jround (q : ℚ) : ℤ := Rat.floor (q + 1 / 2)

/-- `Vector3.add`. -/
def add3 (a b : Pos) : Pos := ⟨a.x + b.x, a.y + b.y, a.z + b.z⟩

/-- `Vector3.multiplyScalar`. -/
def smul3 (k : ℚ) (a : Pos) : Pos := ⟨k * a.x, k * a.y, k * a.z⟩

/-- Dot product of two vectors (used to phrase plane equations). -/
def dot3 (a b : Pos) : ℚ := a.x * b.x + a.y * b.y + a.z * b.z

/-- `isSamePosition` of the store: exact component-wise equality. -/
def isSamePosition (a b : Pos) : Bool :=
  a.x == b.x && a.y == b.y && a.z == b.z

/-- The component-wise epsilon-0.01 proximity test used throughout
`pushPullFace` and `findVoxelsInSamePlane`:
`Math.abs(v.x - p.x) < 0.01 && ... y ... && ... z ...`. -/
def nearPos (a b : Pos) : Bool :=
  |a.x - b.x| < 1 / 100 && |a.y - b.y| < 1 / 100 && |a.z - b.z| < 1 / 100

/-- The initial four-voxel platform of the store. -/
def initialVoxels : List Voxel :=
  [ ⟨⟨0, 0, 0⟩, "#1e88e5"⟩,
    ⟨⟨3 / 10, 0, 0⟩, "#1e88e5"⟩,
    ⟨⟨0, 0, 3 / 10⟩, "#1e88e5"⟩,
    ⟨⟨3 / 10, 0, 3 / 10⟩, "#1e88e5"⟩ ]

/-- The initial store state. -/
def initialState : StoreState :=
  { voxels := initialVoxels, hoveredVoxel := none, selectedFace := none }

/-- `addVoxel` of the store: insert unless a voxel with the exact same
position already exists (in which case the state is returned unchanged). -/
def addVoxel (voxel : Voxel) (s : StoreState) : StoreState :=
  if s.voxels.any (fun v => isSamePosition v.position voxel.position) then s
  else { s with voxels := s.voxels ++ [voxel] }

/-- The branch condition of `addVoxel`: `true` exactly when the position is
already occupied, i.e. when the add is rejected (the `AlreadyOccupied`
outcome of the spec). -/
def addAlreadyOccupied (voxel : Voxel) (s : StoreState) : Bool :=
  s.voxels.any (fun v => isSamePosition v.position voxel.position)

/-- `removeVoxel` of the store: filter out voxels at the exact position. -/
def removeVoxel (position : Pos) (s : StoreState) : StoreState :=
  { s with voxels := s.voxels.filter (fun v => ! isSamePosition v.position position) }

/-- `resetWorld` of the store: restore the platform, leaving hover/selection
fields untouched (zustand `set` merges partial state). -/
def resetWorld (s : StoreState) : StoreState :=
  { s with voxels := initialVoxels }

/-- `setHoveredVoxel` of the store. -/
def setHoveredVoxel (v : Option Voxel) (s : StoreState) : StoreState :=
  { s with hoveredVoxel := v }

/-- `setSelectedFace` of the store. -/
def setSelectedFace (f : Option Face) (s : StoreState) : StoreState :=
  { s with selectedFace := f }

/-- The coplanar-group computation inside `pushPullFace`: the surface voxels
of `voxels` lying on the plane `a*x + b*y + c*z + d = 0` through
`facePosition` with normal `faceNormal` (distance to the plane below `0.01`)
whose face along `faceNormal` is not covered by a neighbouring voxel
within epsilon `0.01`.  The source pushes qualifying voxels in list order,
which is exactly a filter. -/
def voxelsInPlane (voxels : List Voxel) (faceNormal facePosition : Pos) :
    List Voxel :=
  let a := faceNormal.x
  let b := faceNormal.y
  let c := faceNormal.z
  let d := -(a * facePosition.x + b * facePosition.y + c * facePosition.z)
  voxels.filter (fun voxel =>
    let distToPlane :=
      |a * voxel.position.x + b * voxel.position.y + c * voxel.position.z + d|
    decide (distToPlane < 1 / 100) &&
      (let checkPos := add3 voxel.position (smul3 (3 / 10) faceNormal)
       ! voxels.any (fun v => nearPos v.position checkPos)))

/-- The list of voxels staged by the extrusion branch of `pushPullFace`:
for each surface voxel and each layer `i` in `1..steps`, the candidate
`position + faceNormal * (i*0.3)`, kept when no voxel of the state lies
within epsilon `0.01` of it (the `exists` check runs against
`updatedVoxels`, which still equals the original voxel list at that
point), carrying the source voxel's color. -/
def extrudedVoxels (voxels plane : List Voxel) (faceNormal : Pos)
    (steps : ℕ) : List Voxel :=
  plane.flatMap (fun voxel =>
    (List.range' 1 steps).filterMap (fun (i : ℕ) =>
      if voxels.any (fun v => nearPos v.position
          (add3 voxel.position (smul3 ((i : ℚ) * (3 / 10)) faceNormal)))
      then none
      else some ⟨add3 voxel.position (smul3 ((i : ℚ) * (3 / 10)) faceNormal),
        voxel.color⟩))

/-- The deduplicated position set staged by the retraction branch of
`pushPullFace`: for each surface voxel and each layer `i` in `1..steps`,
the positions of the existing voxels within epsilon `0.01` of
`position - faceNormal * (i*0.3)`.  The source stores string keys
`"x,y,z"` in a `Set`; since JavaScript number-to-string conversion is
injective, membership in that set is exact component-wise position
equality, which is how the key list is used below. -/
def retractedPositions (voxels plane : List Voxel) (faceNormal : Pos)
    (steps : ℕ) : List Pos :=
  plane.flatMap (fun voxel =>
    (List.range' 1 steps).flatMap (fun (i : ℕ) =>
      (voxels.filter (fun ev => nearPos ev.position
          (add3 voxel.position
            (smul3 (-(i : ℚ) * (3 / 10)) faceNormal)))).map
        (fun ev => ev.position)))

/-- `pushPullFace` of the store.  The `normal` argument is unused by the
source body (it reads `state.selectedFace.normal` instead); it is kept to
mirror the signature.  The distance is quantized to a whole multiple of
`0.3`; zero quantized distance, a missing selected face or hovered voxel,
and an empty coplanar group all return the state unchanged. -/
def pushPullFace (normal : Pos) (distance : ℚ) (s : StoreState) :
    StoreState :=
  let normalizedDistance : ℚ := (jround (distance / (3 / 10)) : ℚ) * (3 / 10)
  if normalizedDistance = 0 then s
  else
    match s.selectedFace, s.hoveredVoxel with
    | some face, some hovered =>
      let faceNormal := face.normal
      let facePosition := hovered.position
      let plane := voxelsInPlane s.voxels faceNormal facePosition
      if plane.isEmpty then s
      else if 0 < normalizedDistance then
        let steps := (jround (|normalizedDistance| / (3 / 10))).toNat
        { s with voxels :=
            s.voxels ++ extrudedVoxels s.voxels plane faceNormal steps }
      else if normalizedDistance < 0 then
        let steps := (jround (|normalizedDistance| / (3 / 10))).toNat
        let positionsToRemove :=
          retractedPositions s.voxels plane faceNormal steps
        if positionsToRemove.isEmpty then s
        else
          { s with voxels :=
              s.voxels.filter (fun voxel =>
                ! positionsToRemove.any
                    (fun p => isSamePosition p voxel.position)) }
      else s
    | _, _ => s

/-- A highlighted face record of `findVoxelsInSamePlane`
(`{position, normal, color}`). -/
structure FaceInfo where
  position : Pos
  normal : Pos
  color : String
deriving DecidableEq, Repr

/-- The `toFixed(2)` component of the dedup key of
`findVoxelsInSamePlane`: fixed-point rounding to two decimals, modelled
as the rounded integer of `100 * q` (injective on the exact values the
editor produces, as `toFixed` is on their float counterparts). -/
def fixed2 (q : ℚ) : ℤ := jround (100 * q)

/-- The `toFixed(1)` component of the same key. -/
def fixed1 (q : ℚ) : ℤ := jround (10 * q)

/-- The string dedup key
`"x.toFixed(2),y.toFixed(2),z.toFixed(2),nx.toFixed(1),ny.toFixed(1),nz.toFixed(1)"`
of `findVoxelsInSamePlane`, modelled structurally. -/
def posKey (p n : Pos) : ℤ × ℤ × ℤ × ℤ × ℤ × ℤ :=
  (fixed2 p.x, fixed2 p.y, fixed2 p.z, fixed1 n.x, fixed1 n.y, fixed1 n.z)

/-- The `voxels.forEach` loop of `findVoxelsInSamePlane`: walks the voxel
list carrying the set of processed keys, collecting the coplanar voxels
and their face records.  A voxel on the plane whose key was already
processed is skipped; one whose face is covered by a neighbour is skipped
without marking its key processed (matching the source, which adds the
key to the set only in the `!hasNeighbor` branch). -/
def fvispLoop (allVoxels : List Voxel) (a b c d : ℚ) (normal : Pos) :
    List Voxel → List (ℤ × ℤ × ℤ × ℤ × ℤ × ℤ) →
    List Voxel × List FaceInfo
  | [], _ => ([], [])
  | voxel :: rest, processed =>
    let distToPlane :=
      |a * voxel.position.x + b * voxel.position.y + c * voxel.position.z + d|
    if distToPlane < 1 / 100 then
      let facePosition := voxel.position
      let key := posKey facePosition normal
      if processed.contains key then
        fvispLoop allVoxels a b c d normal rest processed
      else
        let checkPos := add3 facePosition (smul3 (3 / 10) normal)
        if allVoxels.any (fun v => nearPos v.position checkPos) then
          fvispLoop allVoxels a b c d normal rest processed
        else
          let t := fvispLoop allVoxels a b c d normal rest (key :: processed)
          (voxel :: t.1, ⟨facePosition, normal, voxel.color⟩ :: t.2)
    else fvispLoop allVoxels a b c d normal rest processed

/-- `findVoxelsInSamePlane` of `VoxelWorld.tsx`: the coplanar exposed
voxels, their face records, and the arithmetic-mean center of the face
positions (the zero vector when the group is empty). -/
def findVoxelsInSamePlane (voxels : List Voxel) (position normal : Pos) :
    List Voxel × Pos × List FaceInfo :=
  let a := normal.x
  let b := normal.y
  let c := normal.z
  let d := -(a * position.x + b * position.y + c * position.z)
  let t := fvispLoop voxels a b c d normal voxels []
  let center :=
    if 0 < t.2.length then
      smul3 (1 / (t.2.length : ℚ))
        (t.2.foldl (fun acc f => add3 acc f.position) ⟨0, 0, 0⟩)
    else ⟨0, 0, 0⟩
  (t.1, center, t.2)

/-- The dominant-axis normal snapping of `Voxel.tsx`
(`handlePointerEnter`) and `VoxelWorld.tsx` (`checkGridSnapping`): X wins
only when `|x|` is strictly greater than both `|y|` and `|z|`, Y wins
only when `|y|` is strictly greater than both `|x|` and `|z|`, and every
other case — all ties included — falls through to Z, whose sign is `+1`
exactly when the component is positive (so a zero Z component yields
`(0, 0, -1)`). -/
def dominantAxis (v : Pos) : Pos :=
  let absX := |v.x|
  let absY := |v.y|
  let absZ := |v.z|
  if absX > absY ∧ absX > absZ then ⟨if v.x > 0 then 1 else -1, 0, 0⟩
  else if absY > absX ∧ absY > absZ then ⟨0, if v.y > 0 then 1 else -1, 0⟩
  else ⟨0, 0, if v.z > 0 then 1 else -1⟩

/-- Grid snapping as performed by the callers
(`Math.round(x / 0.3) * 0.3` in `VoxelWorld.tsx`). -/
def snapQ (q : ℚ) : ℚ := (jround (q / (3 / 10)) : ℚ) * (3 / 10)

/-- Component-wise grid snapping of a position. -/
def snapPos (p : Pos) : Pos := ⟨snapQ p.x, snapQ p.y, snapQ p.z⟩

/-- A coordinate is grid-aligned when it is an integer multiple of `u`. -/
def isGridQ (q : ℚ) : Bool := snapQ q == q

/-- A position is grid-aligned when all three coordinates are. -/
def isGridPos (p : Pos) : Bool := isGridQ p.x && isGridQ p.y && isGridQ p.z

/-- The six axis-aligned unit normals the hover handlers can produce
(`Voxel.tsx` / `VoxelWorld.tsx` snap every raw normal to one of these). -/
def axisUnits : List Pos :=
  [⟨1, 0, 0⟩, ⟨-1, 0, 0⟩, ⟨0, 1, 0⟩, ⟨0, -1, 0⟩, ⟨0, 0, 1⟩, ⟨0, 0, -1⟩]

/-- Whether a vector is one of the six axis-aligned unit normals. -/
def isAxisUnit (n : Pos) : Bool := axisUnits.contains n

/-- One store operation (the mutating actions plus the two setters that
feed `pushPullFace` its selection). -/
inductive Op where
  | add (voxel : Voxel)
  | remove (position : Pos)
  | pushPull (normal : Pos) (distance : ℚ)
  | reset
  | setHovered (voxel : Option Voxel)
  | setSelected (face : Option Face)
deriving DecidableEq, Repr

/-- Apply one operation to the store state. -/
def applyOp : Op → StoreState → StoreState
  | .add v, s => addVoxel v s
  | .remove p, s => removeVoxel p s
  | .pushPull n d, s => pushPullFace n d s
  | .reset, s => resetWorld s
  | .setHovered v, s => setHoveredVoxel v s
  | .setSelected f, s => setSelectedFace f s

/-- Run a sequence of operations from a state. -/
def runOps (ops : List Op) (s : StoreState) : StoreState :=
  ops.foldl (fun s op => applyOp op s) s

/-- Well-formed operation arguments, as produced by the UI layer: added
voxels are at grid-snapped positions and selected faces carry one of the
six axis-snapped unit normals.  (`VoxelWorld.tsx` rounds every position it
passes to `addVoxel` to a multiple of `0.3` and snaps every normal it
passes to `setSelectedFace` to a dominant axis.) -/
def opWF : Op → Bool
  | .add v => isGridPos v.position
  | .setSelected (some f) => isAxisUnit f.normal
  | _ => true

/-- The structural invariant maintained by the store: every voxel sits at
a grid-aligned position, positions are pairwise distinct, and any
selected face carries an axis-snapped unit normal. -/
def stateWF (s : StoreState) : Prop :=
  (∀ v ∈ s.voxels, isGridPos v.position = true) ∧
  s.voxels.Pairwise (fun a b => a.position ≠ b.position) ∧
  ∀ f, s.selectedFace = some f → isAxisUnit f.normal = true

/-- The scenario setup for extruding the platform upward: the user hovers
the top face of the platform voxel at the origin, so the selected face
normal is `(0,1,0)` and the hovered voxel is the platform voxel. -/
def extrudeScenarioState : StoreState :=
  { voxels := initialVoxels,
    hoveredVoxel := some ⟨⟨0, 0, 0⟩, "#1e88e5"⟩,
    selectedFace := some ⟨⟨0, 1, 0⟩⟩ }

/-- The four voxels the platform extrusion adds, one layer up at
`y = 0.3`, in the order `pushPullFace` stages them. -/
def extrudedLayer : List Voxel :=
  [ ⟨⟨0, 3 / 10, 0⟩, "#1e88e5"⟩,
    ⟨⟨3 / 10, 3 / 10, 0⟩, "#1e88e5"⟩,
    ⟨⟨0, 3 / 10, 3 / 10⟩, "#1e88e5"⟩,
    ⟨⟨3 / 10, 3 / 10, 3 / 10⟩, "#1e88e5"⟩ ]

/-- The state after extruding the platform up one layer and then hovering
a voxel of the new top layer (normal still `(0,1,0)`): the setup for the
retraction half of the round-trip scenario. -/
def retractScenarioState : StoreState :=
  setHoveredVoxel (some ⟨⟨0, 3 / 10, 0⟩, "#1e88e5"⟩)
    (pushPullFace ⟨0, 1, 0⟩ (3 / 10) extrudeScenarioState)

/-- A sample well-formed operation sequence exercising every operation:
select the up face, hover the origin voxel, extrude one layer, add a
voxel, hover the new layer, retract one layer, remove the added voxel. -/
def demoOps : List Op :=
  [ Op.setSelected (some ⟨⟨0, 1, 0⟩⟩),
    Op.setHovered (some ⟨⟨0, 0, 0⟩, "#1e88e5"⟩),
    Op.pushPull ⟨0, 1, 0⟩ (3 / 10),
    Op.add ⟨⟨3 / 5, 0, 0⟩, "#ff0000"⟩,
    Op.setHovered (some ⟨⟨0, 3 / 10, 0⟩, "#1e88e5"⟩),
    Op.pushPull ⟨0, 1, 0⟩ (-(3 / 10)),
    Op.remove ⟨3 / 5, 0, 0⟩ ]

theorem jround_eq_floor (q : ℚ) : jround q = ⌊q + 1 / 2⌋ := rfl

theorem jround_intCast (k : ℤ) : jround (k : ℚ) = k := by
  rw [jround_eq_floor, add_comm, Int.floor_add_int]
  norm_num

theorem isSamePosition_iff {a b : Pos} : isSamePosition a b = true ↔ a = b := by
  cases a; cases b
  simp [isSamePosition, Pos.mk.injEq, Bool.and_eq_true, beq_iff_eq, and_assoc]

theorem nearPos_self (a : Pos) : nearPos a a = true := by
  simp [nearPos]

theorem isGridQ_iff {q : ℚ} : isGridQ q = true ↔ ∃ k : ℤ, q = (k : ℚ) * (3 / 10) := by
  constructor
  · intro h
    refine ⟨jround (q / (3 / 10)), ?_⟩
    have := (beq_iff_eq.mp h).symm
    simpa [snapQ] using this
  · rintro ⟨k, rfl⟩
    have h3 : ((k : ℚ) * (3 / 10)) / (3 / 10) = (k : ℚ) := by norm_num
    simp [isGridQ, snapQ, h3, jround_intCast, beq_iff_eq]

theorem snapQ_grid {q : ℚ} (h : isGridQ q = true) : snapQ q = q :=
  beq_iff_eq.mp h

theorem isGridPos_iff {p : Pos} :
    isGridPos p = true ↔
      isGridQ p.x = true ∧ isGridQ p.y = true ∧ isGridQ p.z = true := by
  simp [isGridPos, Bool.and_eq_true, and_assoc]

theorem snapPos_grid {p : Pos} (h : isGridPos p = true) : snapPos p = p := by
  obtain ⟨hx, hy, hz⟩ := isGridPos_iff.mp h
  rcases p with ⟨x, y, z⟩
  simp [snapPos, snapQ_grid hx, snapQ_grid hy, snapQ_grid hz]

theorem isAxisUnit_cases {n : Pos} (h : isAxisUnit n = true) :
    n = ⟨1, 0, 0⟩ ∨ n = ⟨-1, 0, 0⟩ ∨ n = ⟨0, 1, 0⟩ ∨ n = ⟨0, -1, 0⟩ ∨
    n = ⟨0, 0, 1⟩ ∨ n = ⟨0, 0, -1⟩ := by
  simpa [isAxisUnit, axisUnits, List.contains_iff_exists_mem_beq, beq_iff_eq,
    or_assoc] using h

theorem dot3_add3 (n p q : Pos) : dot3 n (add3 p q) = dot3 n p + dot3 n q := by
  simp [dot3, add3]
  ring

theorem dot3_smul3 (n : Pos) (t : ℚ) (p : Pos) :
    dot3 n (smul3 t p) = t * dot3 n p := by
  simp [dot3, smul3]
  ring

theorem dot3_self_axis {n : Pos} (h : isAxisUnit n = true) : dot3 n n = 1 := by
  rcases isAxisUnit_cases h with rfl | rfl | rfl | rfl | rfl | rfl <;>
    norm_num [dot3]

theorem dot3_grid {n p : Pos} (hn : isAxisUnit n = true)
    (hp : isGridPos p = true) : ∃ k : ℤ, dot3 n p = (k : ℚ) * (3 / 10) := by
  obtain ⟨hx, hy, hz⟩ := isGridPos_iff.mp hp
  obtain ⟨kx, ex⟩ := isGridQ_iff.mp hx
  obtain ⟨ky, ey⟩ := isGridQ_iff.mp hy
  obtain ⟨kz, ez⟩ := isGridQ_iff.mp hz
  rcases isAxisUnit_cases hn with rfl | rfl | rfl | rfl | rfl | rfl
  · exact ⟨kx, by rw [dot3]; rw [ex]; ring⟩
  · exact ⟨-kx, by rw [dot3]; rw [ex]; push_cast; ring⟩
  · exact ⟨ky, by rw [dot3]; rw [ey]; ring⟩
  · exact ⟨-ky, by rw [dot3]; rw [ey]; push_cast; ring⟩
  · exact ⟨kz, by rw [dot3]; rw [ez]; ring⟩
  · exact ⟨-kz, by rw [dot3]; rw [ez]; push_cast; ring⟩

theorem gridMul_close {k m : ℤ}
    (h : |(k : ℚ) * (3 / 10) - (m : ℚ) * (3 / 10)| < 2 / 100) : k = m := by
  by_contra hne
  have h1 : 1 ≤ |k - m| := Int.one_le_abs (sub_ne_zero_of_ne hne)
  have h2 : (1 : ℚ) ≤ |(k : ℚ) - (m : ℚ)| := by
    have hc : ((1 : ℤ) : ℚ) ≤ ((|k - m| : ℤ) : ℚ) := by exact_mod_cast h1
    simpa [Int.cast_abs] using hc
  have h3 : |(k : ℚ) * (3 / 10) - (m : ℚ) * (3 / 10)| =
      |(k : ℚ) - (m : ℚ)| * (3 / 10) := by
    rw [← sub_mul, abs_mul]
    norm_num
  rw [h3] at h
  nlinarith

theorem isGridQ_add_mul {q : ℚ} (h : isGridQ q = true) (k : ℤ) :
    isGridQ (q + (k : ℚ) * (3 / 10)) = true := by
  obtain ⟨m, rfl⟩ := isGridQ_iff.mp h
  exact isGridQ_iff.mpr ⟨m + k, by push_cast; ring⟩

theorem grid_offset {n p : Pos} (hn : isAxisUnit n = true)
    (hp : isGridPos p = true) (t : ℤ) :
    isGridPos (add3 p (smul3 ((t : ℚ) * (3 / 10)) n)) = true := by
  obtain ⟨hx, hy, hz⟩ := isGridPos_iff.mp hp
  have hneg : ∀ {q : ℚ}, isGridQ q = true → ∀ m : ℤ,
      isGridQ (q + (m : ℚ) * (3 / 10) * -1) = true := by
    intro q hq m
    have := isGridQ_add_mul hq (-m)
    have e : q + (m : ℚ) * (3 / 10) * -1 = q + ((-m : ℤ) : ℚ) * (3 / 10) := by
      push_cast
      ring
    rw [e]
    exact this
  rcases isAxisUnit_cases hn with rfl | rfl | rfl | rfl | rfl | rfl <;>
    refine isGridPos_iff.mpr ⟨?_, ?_, ?_⟩ <;>
      simp [add3, smul3] <;>
      first
        | simpa using isGridQ_add_mul hx t
        | simpa using isGridQ_add_mul hy t
        | simpa using isGridQ_add_mul hz t
        | simpa using hneg hx t
        | simpa using hneg hy t
        | simpa using hneg hz t
        | simpa using hx
        | simpa using hy
        | simpa using hz

theorem pairwise_flatMap_of {α β : Type} {R : β → β → Prop}
    {f : α → List β} {l : List α}
    (h1 : ∀ a ∈ l, (f a).Pairwise R)
    (h2 : l.Pairwise (fun a b => ∀ x ∈ f a, ∀ y ∈ f b, R x y)) :
    (l.flatMap f).Pairwise R := by
  induction l with
  | nil => simp
  | cons a tl ih =>
    rw [List.flatMap_cons, List.pairwise_append]
    rcases List.pairwise_cons.mp h2 with ⟨hhead, htl⟩
    refine ⟨h1 a (by simp), ih (fun b hb => h1 b (by simp [hb])) htl, ?_⟩
    intro x hx y hy
    rcases List.mem_flatMap.mp hy with ⟨b, hb, hyb⟩
    exact hhead b hb x hx y hyb

theorem planeExpr_eq (nrm anchor p : Pos) :
    nrm.x * p.x + nrm.y * p.y + nrm.z * p.z +
      -(nrm.x * anchor.x + nrm.y * anchor.y + nrm.z * anchor.z) =
    dot3 nrm p - dot3 nrm anchor := by
  simp [dot3]
  ring

theorem mem_voxelsInPlane {vx : List Voxel} {nrm anchor : Pos} {v : Voxel} :
    v ∈ voxelsInPlane vx nrm anchor ↔
      v ∈ vx ∧
      |dot3 nrm v.position - dot3 nrm anchor| < 1 / 100 ∧
      ∀ w ∈ vx, nearPos w.position
        (add3 v.position (smul3 (3 / 10) nrm)) = false := by
  rw [voxelsInPlane]
  simp only [List.mem_filter, Bool.and_eq_true, decide_eq_true_eq,
    Bool.not_eq_true', List.any_eq_false, Bool.not_eq_true, planeExpr_eq]

theorem mem_extrudedVoxels {vx plane : List Voxel} {nrm : Pos} {steps : ℕ}
    {x : Voxel} :
    x ∈ extrudedVoxels vx plane nrm steps ↔
      ∃ v ∈ plane, ∃ i : ℕ, i ∈ List.range' 1 steps ∧
        (∀ w ∈ vx, nearPos w.position
            (add3 v.position (smul3 ((i : ℚ) * (3 / 10)) nrm)) = false) ∧
        x = ⟨add3 v.position (smul3 ((i : ℚ) * (3 / 10)) nrm), v.color⟩ := by
  constructor
  · intro hx
    rw [extrudedVoxels] at hx
    obtain ⟨v, hv, hxin⟩ := List.mem_flatMap.mp hx
    obtain ⟨i, hi, hif⟩ := List.mem_filterMap.mp hxin
    by_cases hc : vx.any (fun w => nearPos w.position
        (add3 v.position (smul3 ((i : ℚ) * (3 / 10)) nrm))) = true
    · rw [if_pos hc] at hif
      cases hif
    · rw [if_neg hc] at hif
      rw [Bool.not_eq_true] at hc
      refine ⟨v, hv, i, hi, ?_, ?_⟩
      · intro w hw
        have := List.any_eq_false.mp hc w hw
        rwa [Bool.not_eq_true] at this
      · exact (Option.some.injEq _ _ ▸ hif).symm
  · rintro ⟨v, hv, i, hi, hall, rfl⟩
    rw [extrudedVoxels]
    apply List.mem_flatMap.mpr
    refine ⟨v, hv, ?_⟩
    apply List.mem_filterMap.mpr
    refine ⟨i, hi, ?_⟩
    have hc : vx.any (fun w => nearPos w.position
        (add3 v.position (smul3 ((i : ℚ) * (3 / 10)) nrm))) = false := by
      apply List.any_eq_false.mpr
      intro w hw
      rw [hall w hw]
      simp
    rw [hc]
    simp

theorem plane_dot_eq {vx : List Voxel} {nrm anchor : Pos}
    (hn : isAxisUnit nrm = true)
    (hg : ∀ v ∈ vx, isGridPos v.position = true)
    {a b : Voxel} (ha : a ∈ voxelsInPlane vx nrm anchor)
    (hb : b ∈ voxelsInPlane vx nrm anchor) :
    dot3 nrm a.position = dot3 nrm b.position := by
  obtain ⟨hav, had, -⟩ := mem_voxelsInPlane.mp ha
  obtain ⟨hbv, hbd, -⟩ := mem_voxelsInPlane.mp hb
  obtain ⟨k, hk⟩ := dot3_grid hn (hg a hav)
  obtain ⟨m, hm⟩ := dot3_grid hn (hg b hbv)
  rw [hk] at had ⊢
  rw [hm] at hbd ⊢
  have htri := abs_sub_le ((k : ℚ) * (3 / 10)) (dot3 nrm anchor)
    ((m : ℚ) * (3 / 10))
  have hcomm : |dot3 nrm anchor - (m : ℚ) * (3 / 10)| < 1 / 100 := by
    rw [abs_sub_comm]
    exact hbd
  have hclose : |(k : ℚ) * (3 / 10) - (m : ℚ) * (3 / 10)| < 2 / 100 := by
    linarith
  rw [gridMul_close hclose]

theorem staged_ne_layer {nrm p q : Pos} (hn : isAxisUnit nrm = true)
    (hdot : dot3 nrm p = dot3 nrm q) {i j : ℕ} (hij : i ≠ j) :
    add3 p (smul3 ((i : ℚ) * (3 / 10)) nrm) ≠
      add3 q (smul3 ((j : ℚ) * (3 / 10)) nrm) := by
  intro he
  have hd := congrArg (dot3 nrm) he
  rw [dot3_add3, dot3_add3, dot3_smul3, dot3_smul3, dot3_self_axis hn,
    hdot] at hd
  have hq : (i : ℚ) = (j : ℚ) := by linarith
  exact hij (by exact_mod_cast hq)

theorem staged_ne_source {nrm p q : Pos} (hpq : p ≠ q) (t : ℚ) :
    add3 p (smul3 t nrm) ≠ add3 q (smul3 t nrm) := by
  intro he
  apply hpq
  cases p
  cases q
  simp only [add3, smul3, Pos.mk.injEq] at he ⊢
  refine ⟨?_, ?_, ?_⟩
  · have := he.1; linarith
  · have := he.2.1; linarith
  · have := he.2.2; linarith

theorem extrudedVoxels_grid {vx : List Voxel} {nrm anchor : Pos} {steps : ℕ}
    (hn : isAxisUnit nrm = true)
    (hg : ∀ v ∈ vx, isGridPos v.position = true) :
    ∀ x ∈ extrudedVoxels vx (voxelsInPlane vx nrm anchor) nrm steps,
      isGridPos x.position = true := by
  intro x hx
  obtain ⟨v, hv, i, -, -, rfl⟩ := mem_extrudedVoxels.mp hx
  have hvg := hg v (mem_voxelsInPlane.mp hv).1
  have := grid_offset hn hvg (i : ℤ)
  simpa using this

theorem extrudedVoxels_pairwise {vx : List Voxel} {nrm anchor : Pos}
    {steps : ℕ} (hn : isAxisUnit nrm = true)
    (hg : ∀ v ∈ vx, isGridPos v.position = true)
    (hp : vx.Pairwise (fun a b => a.position ≠ b.position)) :
    (extrudedVoxels vx (voxelsInPlane vx nrm anchor) nrm steps).Pairwise
      (fun a b => a.position ≠ b.position) := by
  rw [extrudedVoxels]
  apply pairwise_flatMap_of
  · intro v hv
    apply List.Pairwise.filterMap _ ?_ (List.pairwise_lt_range' 1 steps)
    intro i j hij b hb c hc
    by_cases hci : vx.any (fun w => nearPos w.position
        (add3 v.position (smul3 ((i : ℚ) * (3 / 10)) nrm))) = true
    · simp only [hci, if_true] at hb
      cases hb
    by_cases hcj : vx.any (fun w => nearPos w.position
        (add3 v.position (smul3 ((j : ℚ) * (3 / 10)) nrm))) = true
    · simp only [hcj, if_true] at hc
      cases hc
    rw [Bool.not_eq_true] at hci hcj
    simp only [hci, hcj, Bool.false_eq_true, if_false, Option.mem_def,
      Option.some.injEq] at hb hc
    subst hb
    subst hc
    exact staged_ne_layer hn rfl (Nat.ne_of_lt hij)
  · have hpw : (voxelsInPlane vx nrm anchor).Pairwise
        (fun a b => a.position ≠ b.position) :=
      List.Pairwise.sublist (List.filter_sublist _) hp
    have hmem : ∀ a ∈ voxelsInPlane vx nrm anchor,
        ∀ b ∈ voxelsInPlane vx nrm anchor, a.position ≠ b.position →
        ∀ x ∈ (List.range' 1 steps).filterMap (fun (i : ℕ) =>
            if vx.any (fun w => nearPos w.position
                (add3 a.position (smul3 ((i : ℚ) * (3 / 10)) nrm))) then none
            else some (Voxel.mk
              (add3 a.position (smul3 ((i : ℚ) * (3 / 10)) nrm)) a.color)),
          ∀ y ∈ (List.range' 1 steps).filterMap (fun (i : ℕ) =>
            if vx.any (fun w => nearPos w.position
                (add3 b.position (smul3 ((i : ℚ) * (3 / 10)) nrm))) then none
            else some (Voxel.mk
              (add3 b.position (smul3 ((i : ℚ) * (3 / 10)) nrm)) b.color)),
          x.position ≠ y.position := by
      intro a ha b hb hab x hx y hy
      obtain ⟨i, hi, hxi⟩ := List.mem_filterMap.mp hx
      obtain ⟨j, hj, hyj⟩ := List.mem_filterMap.mp hy
      by_cases hci : vx.any (fun w => nearPos w.position
          (add3 a.position (smul3 ((i : ℚ) * (3 / 10)) nrm))) = true
      · simp only [hci, if_true] at hxi
        cases hxi
      by_cases hcj : vx.any (fun w => nearPos w.position
          (add3 b.position (smul3 ((j : ℚ) * (3 / 10)) nrm))) = true
      · simp only [hcj, if_true] at hyj
        cases hyj
      rw [Bool.not_eq_true] at hci hcj
      simp only [hci, hcj, Bool.false_eq_true, if_false,
        Option.some.injEq] at hxi hyj
      subst hxi
      subst hyj
      simp only []
      by_cases hij : i = j
      · subst hij
        exact staged_ne_source hab _
      · exact staged_ne_layer hn (plane_dot_eq hn hg ha hb) hij
    refine List.Pairwise.imp_of_mem ?_ hpw
    intro a b ha hb hab
    exact hmem a ha b hb hab

theorem extrudedVoxels_fresh {vx plane : List Voxel} {nrm : Pos} {steps : ℕ}
    {w x : Voxel} (hw : w ∈ vx)
    (hx : x ∈ extrudedVoxels vx plane nrm steps) :
    w.position ≠ x.position := by
  obtain ⟨v, hv, i, -, hall, rfl⟩ := mem_extrudedVoxels.mp hx
  intro he
  have hfalse := hall w hw
  rw [he] at hfalse
  rw [nearPos_self] at hfalse
  cases hfalse

theorem addVoxel_of_occupied {v : Voxel} {t : StoreState}
    (h : addAlreadyOccupied v t = true) : addVoxel v t = t := by
  have hany : (t.voxels.any fun w => isSamePosition w.position v.position)
      = true := h
  rw [addVoxel, if_pos hany]

theorem addVoxel_of_free {v : Voxel} {t : StoreState}
    (h : ¬ addAlreadyOccupied v t = true) :
    addVoxel v t = { t with voxels := t.voxels ++ [v] } := by
  have hany : ¬ (t.voxels.any fun w => isSamePosition w.position v.position)
      = true := h
  rw [addVoxel, if_neg hany]

theorem addVoxel_stateWF {v : Voxel} {s : StoreState} (hs : stateWF s)
    (hv : isGridPos v.position = true) : stateWF (addVoxel v s) := by
  obtain ⟨hg, hp, hsel⟩ := hs
  rw [addVoxel]
  split
  · exact ⟨hg, hp, hsel⟩
  · next hocc =>
    refine ⟨?_, ?_, hsel⟩
    · intro w hw
      rcases List.mem_append.mp hw with h | h
      · exact hg w h
      · rw [List.mem_singleton] at h
        subst h
        exact hv
    · rw [List.pairwise_append]
      refine ⟨hp, List.pairwise_singleton _ _, ?_⟩
      intro a ha b hb
      rw [List.mem_singleton] at hb
      subst hb
      intro he
      exact hocc (List.any_eq_true.mpr ⟨a, ha, isSamePosition_iff.mpr he⟩)

theorem removeVoxel_stateWF {p : Pos} {s : StoreState} (hs : stateWF s) :
    stateWF (removeVoxel p s) := by
  obtain ⟨hg, hp, hsel⟩ := hs
  exact ⟨fun v hv => hg v (List.mem_filter.mp hv).1,
    List.Pairwise.sublist (List.filter_sublist _) hp, hsel⟩

theorem initialVoxels_grid :
    ∀ v ∈ initialVoxels, isGridPos v.position = true := by
  with_unfolding_all decide

theorem initialVoxels_pairwise :
    initialVoxels.Pairwise (fun a b => a.position ≠ b.position) := by
  with_unfolding_all decide

theorem resetWorld_stateWF {s : StoreState} (hs : stateWF s) :
    stateWF (resetWorld s) :=
  ⟨initialVoxels_grid, initialVoxels_pairwise, hs.2.2⟩

theorem initialState_stateWF : stateWF initialState := by
  refine ⟨initialVoxels_grid, initialVoxels_pairwise, ?_⟩
  intro f h
  cases h

theorem pushPullFace_stateWF {n : Pos} {d : ℚ} {s : StoreState}
    (hs : stateWF s) : stateWF (pushPullFace n d s) := by
  obtain ⟨hg, hp, hsel⟩ := hs
  obtain ⟨vx, hov, sel⟩ := s
  rw [pushPullFace]
  dsimp only at hg hp hsel ⊢
  split
  · exact ⟨hg, hp, hsel⟩
  · cases sel with
    | none => exact ⟨hg, hp, hsel⟩
    | some face =>
      cases hov with
      | none => exact ⟨hg, hp, hsel⟩
      | some hovered =>
        dsimp only
        have hface : isAxisUnit face.normal = true := hsel face rfl
        split
        · exact ⟨hg, hp, hsel⟩
        · split
          · refine ⟨?_, ?_, hsel⟩
            · intro v hv
              rcases List.mem_append.mp hv with h | h
              · exact hg v h
              · exact extrudedVoxels_grid hface hg v h
            · rw [List.pairwise_append]
              exact ⟨hp, extrudedVoxels_pairwise hface hg hp,
                fun a ha b hb => extrudedVoxels_fresh ha hb⟩
          · split
            · split
              · exact ⟨hg, hp, hsel⟩
              · refine ⟨?_, ?_, hsel⟩
                · intro v hv
                  exact hg v (List.mem_filter.mp hv).1
                · exact List.Pairwise.sublist (List.filter_sublist _) hp
            · exact ⟨hg, hp, hsel⟩

theorem applyOp_stateWF {op : Op} {s : StoreState} (hs : stateWF s)
    (hop : opWF op = true) : stateWF (applyOp op s) := by
  cases op with
  | add v => exact addVoxel_stateWF hs (by simpa [opWF] using hop)
  | remove p => exact removeVoxel_stateWF hs
  | pushPull n d =>
    show stateWF (pushPullFace n d s)
    exact pushPullFace_stateWF hs
  | reset => exact resetWorld_stateWF hs
  | setHovered v => exact ⟨hs.1, hs.2.1, hs.2.2⟩
  | setSelected f =>
    refine ⟨hs.1, hs.2.1, ?_⟩
    intro g hgf
    cases f with
    | none => cases hgf
    | some f0 =>
      have : f0 = g := by
        have h := hgf
        simp only [applyOp, setSelectedFace, Option.some.injEq] at h
        exact h
      subst this
      simpa [opWF] using hop

theorem runOps_stateWF {ops : List Op} {s : StoreState} (hs : stateWF s)
    (hops : ∀ op ∈ ops, opWF op = true) : stateWF (runOps ops s) := by
  induction ops generalizing s with
  | nil => exact hs
  | cons op tl ih =>
    exact ih (applyOp_stateWF hs (hops op (by simp)))
      (fun o ho => hops o (by simp [ho]))

/-- Claim C1, counterexample: the uniqueness claim quantifies over every
sequence of store operations, but `addVoxel` checks occupancy by exact
equality only, so adding a voxel at the unsnapped position
`(0.0001, 0, 0)` to the initial platform yields two voxels whose
positions snap to the same grid cell `(0,0,0)`: the snapped-position
pairwise-distinctness predicate fails after this one-operation
sequence. -/
theorem snapped_uniqueness_fails_for_unsnapped_add :
    ¬ (runOps [Op.add ⟨⟨1 / 10000, 0, 0⟩, "#ff0000"⟩]
        initialState).voxels.Pairwise
        (fun a b => snapPos a.position ≠ snapPos b.position) ∧
    snapPos ⟨1 / 10000, 0, 0⟩ = snapPos ⟨0, 0, 0⟩ ∧
    (runOps [Op.add ⟨⟨1 / 10000, 0, 0⟩, "#ff0000"⟩]
      initialState).voxels.length = 5 := by
  with_unfolding_all decide

/-- Claim C1, amended: for every sequence of store operations whose
added voxels are at grid-snapped positions and whose selected faces
carry axis-snapped unit normals (the only arguments the UI layer ever
produces), the voxel list reached from the initial platform never holds
two voxels with the same snapped position. -/
theorem snapped_uniqueness_invariant (ops : List Op)
    (hops : ∀ op ∈ ops, opWF op = true) :
    (runOps ops initialState).voxels.Pairwise
      (fun a b => snapPos a.position ≠ snapPos b.position) := by
  obtain ⟨hg, hp, -⟩ := runOps_stateWF initialState_stateWF hops
  refine List.Pairwise.imp_of_mem ?_ hp
  intro a b ha hb hne
  rw [snapPos_grid (hg a ha), snapPos_grid (hg b hb)]
  exact hne

/-- Claim C1, witness: the amended invariant evaluated on a concrete
well-formed sequence exercising extrusion, retraction, add and remove. -/
theorem snapped_uniqueness_invariant_witness :
    (∀ op ∈ demoOps, opWF op = true) ∧
    (runOps demoOps initialState).voxels.Pairwise
      (fun a b => snapPos a.position ≠ snapPos b.position) :=
  ⟨by with_unfolding_all decide,
    snapped_uniqueness_invariant demoOps (by with_unfolding_all decide)⟩

/-- Claim C2, counterexample: extruding the default platform by `u` and
then retracting the resulting outer face by `u` does not restore the
original occupied positions — the retraction deletes the layer beneath
the hovered plane, so the original cell `(0,0,0)` is gone while the
extrusion-added voxel at `(0, u, 0)` survives. -/
theorem roundTrip_not_restoring :
    (⟨0, 0, 0⟩ : Pos) ∈ initialVoxels.map (fun v => v.position) ∧
    (⟨0, 0, 0⟩ : Pos) ∉
      (pushPullFace ⟨0, 1, 0⟩ (-(3 / 10)) retractScenarioState).voxels.map
        (fun v => v.position) ∧
    (⟨0, 3 / 10, 0⟩ : Pos) ∈
      (pushPullFace ⟨0, 1, 0⟩ (-(3 / 10)) retractScenarioState).voxels.map
        (fun v => v.position) := by
  with_unfolding_all decide

/-- Claim C2, amended: retracting by `-u` immediately after extruding the
default platform by `u` removes the four original platform voxels, not
the four the extrusion added; the four extruded copies at `y = u` are
exactly what remains, and the occupied count does return to 4. -/
theorem roundTrip_shifts_selection :
    (pushPullFace ⟨0, 1, 0⟩ (-(3 / 10)) retractScenarioState).voxels =
      extrudedLayer ∧
    (pushPullFace ⟨0, 1, 0⟩ (-(3 / 10))
      retractScenarioState).voxels.length = 4 := by
  with_unfolding_all decide

/-- Claim C3: a voxel belongs to the coplanar group computed by
`pushPullFace` iff it is in the list, its position lies on the plane
through the anchor with the given normal within epsilon `0.01 = u/30`,
and no voxel lies within epsilon of `position + normal*u` (its face
along the normal is exposed); and on the four-voxel platform with normal
`(0,1,0)`, `findVoxelsInSamePlane` returns all four voxels with center
`(u/2, 0, u/2)`. -/
theorem coplanarGroup_membership :
    (∀ (vx : List Voxel) (nrm anchor : Pos) (v : Voxel),
      v ∈ voxelsInPlane vx nrm anchor ↔
        v ∈ vx ∧
        |dot3 nrm v.position - dot3 nrm anchor| < 1 / 100 ∧
        ∀ w ∈ vx, nearPos w.position
          (add3 v.position (smul3 (3 / 10) nrm)) = false) ∧
    (findVoxelsInSamePlane initialVoxels ⟨0, 0, 0⟩ ⟨0, 1, 0⟩).1 =
      initialVoxels ∧
    (findVoxelsInSamePlane initialVoxels ⟨0, 0, 0⟩ ⟨0, 1, 0⟩).2.1 =
      ⟨3 / 20, 0, 3 / 20⟩ :=
  ⟨fun _ _ _ _ => mem_voxelsInPlane,
    by with_unfolding_all decide,
    by with_unfolding_all decide⟩

/-- Claim C4: extruding the default platform up by one layer appends
exactly four voxels at `y = u`, one above each platform voxel with the
platform voxel's x,z coordinates and color, taking the occupied count
from 4 to 8. -/
theorem extrude_platform_scenario :
    (pushPullFace ⟨0, 1, 0⟩ (3 / 10) extrudeScenarioState).voxels =
      initialVoxels ++ extrudedLayer ∧
    initialVoxels.length = 4 ∧
    (pushPullFace ⟨0, 1, 0⟩ (3 / 10)
      extrudeScenarioState).voxels.length = 8 ∧
    (∀ v ∈ extrudedLayer, v.position.y = 3 / 10 ∧
      ∃ w ∈ initialVoxels, w.position.x = v.position.x ∧
        w.position.z = v.position.z ∧ v.color = w.color) := by
  with_unfolding_all decide

/-- Claim C5: adding at an occupied position leaves the state exactly
unchanged and the occupied branch condition (the `AlreadyOccupied`
outcome) holds; after any add of `v` the position reads occupied, and
adding the same voxel twice from a state holding at most one voxel at
that position leaves exactly one voxel there. -/
theorem addVoxel_already_occupied_atomic (v : Voxel) (s : StoreState) :
    (addAlreadyOccupied v s = true → addVoxel v s = s) ∧
    addAlreadyOccupied v (addVoxel v s) = true ∧
    (s.voxels.countP (fun w => isSamePosition w.position v.position) ≤ 1 →
      (addVoxel v (addVoxel v s)).voxels.countP
        (fun w => isSamePosition w.position v.position) = 1) := by
  have hself : isSamePosition v.position v.position = true :=
    isSamePosition_iff.mpr rfl
  refine ⟨fun h => addVoxel_of_occupied h, ?_, ?_⟩
  · by_cases h : addAlreadyOccupied v s = true
    · rw [addVoxel_of_occupied h]
      exact h
    · rw [addVoxel_of_free h]
      apply List.any_eq_true.mpr
      exact ⟨v, List.mem_append_right _ (List.mem_singleton_self v), hself⟩
  · intro hle
    by_cases h : addAlreadyOccupied v s = true
    · rw [addVoxel_of_occupied h, addVoxel_of_occupied h]
      obtain ⟨w, hw, hws⟩ := List.any_eq_true.mp h
      have hpos : 0 < s.voxels.countP
          (fun w => isSamePosition w.position v.position) :=
        List.countP_pos_iff.mpr ⟨w, hw, hws⟩
      omega
    · have hcount0 : s.voxels.countP
          (fun w => isSamePosition w.position v.position) = 0 := by
        rw [List.countP_eq_zero]
        intro a ha hpa
        exact h (List.any_eq_true.mpr ⟨a, ha, hpa⟩)
      have h2 := addVoxel_of_free h
      have hocc2 : addAlreadyOccupied v (addVoxel v s) = true := by
        rw [h2]
        apply List.any_eq_true.mpr
        exact ⟨v, List.mem_append_right _ (List.mem_singleton_self v), hself⟩
      rw [addVoxel_of_occupied hocc2, h2]
      simp [List.countP_append, hcount0, List.countP_cons, hself]

/-- Claim C5, witness: the occupied platform cell `(0,0,0)` rejects a
second add with no mutation, and two adds there leave one voxel. -/
theorem addVoxel_already_occupied_atomic_witness :
    addAlreadyOccupied ⟨⟨0, 0, 0⟩, "#1e88e5"⟩ initialState = true ∧
    addVoxel ⟨⟨0, 0, 0⟩, "#1e88e5"⟩ initialState = initialState ∧
    initialState.voxels.countP
      (fun w => isSamePosition w.position ⟨0, 0, 0⟩) ≤ 1 ∧
    (addVoxel ⟨⟨0, 0, 0⟩, "#1e88e5"⟩
      (addVoxel ⟨⟨0, 0, 0⟩, "#1e88e5"⟩ initialState)).voxels.countP
      (fun w => isSamePosition w.position ⟨0, 0, 0⟩) = 1 :=
  ⟨by with_unfolding_all decide,
    (addVoxel_already_occupied_atomic ⟨⟨0, 0, 0⟩, "#1e88e5"⟩
      initialState).1 (by with_unfolding_all decide),
    by with_unfolding_all decide,
    (addVoxel_already_occupied_atomic ⟨⟨0, 0, 0⟩, "#1e88e5"⟩
      initialState).2.2 (by with_unfolding_all decide)⟩

/-- Claim C6: a distance whose quantization `round(d / u)` is zero makes
`pushPullFace` return the state unchanged, for every state, normal and
selection — the no-op outcome, not an error. -/
theorem pushPull_zero_distance_noop (n : Pos) (d : ℚ) (s : StoreState)
    (h : jround (d / (3 / 10)) = 0) : pushPullFace n d s = s := by
  rw [pushPullFace, h]
  norm_num

/-- Claim C6, witness: the sub-half-unit distance `0.1` quantizes to zero
steps and leaves the extrusion scenario state untouched. -/
theorem pushPull_zero_distance_noop_witness :
    jround ((1 / 10 : ℚ) / (3 / 10)) = 0 ∧
    pushPullFace ⟨0, 1, 0⟩ (1 / 10) extrudeScenarioState =
      extrudeScenarioState :=
  ⟨by with_unfolding_all decide,
    pushPull_zero_distance_noop ⟨0, 1, 0⟩ (1 / 10) extrudeScenarioState
      (by with_unfolding_all decide)⟩

/-- Claim C7: with no selected face, no hovered voxel, or an empty
computed coplanar group, `pushPullFace` returns the state exactly
unchanged, whatever the distance. -/
theorem pushPull_empty_selection_noop (n : Pos) (d : ℚ) (s : StoreState)
    (h : s.selectedFace = none ∨ s.hoveredVoxel = none ∨
      ∀ face hovered, s.selectedFace = some face →
        s.hoveredVoxel = some hovered →
        voxelsInPlane s.voxels face.normal hovered.position = []) :
    pushPullFace n d s = s := by
  obtain ⟨vx, hov, sel⟩ := s
  rw [pushPullFace]
  dsimp only at h ⊢
  split
  · rfl
  · cases sel with
    | none => rfl
    | some face =>
      cases hov with
      | none => rfl
      | some hovered =>
        dsimp only
        rcases h with h | h | h
        · cases h
        · cases h
        · rw [h face hovered rfl rfl]
          rfl

/-- Claim C7, witness: the initial state has no selected face, so a
one-layer push-pull leaves it untouched. -/
theorem pushPull_empty_selection_noop_witness :
    initialState.selectedFace = none ∧
    pushPullFace ⟨0, 1, 0⟩ (3 / 10) initialState = initialState :=
  ⟨rfl, pushPull_empty_selection_noop ⟨0, 1, 0⟩ (3 / 10) initialState
    (Or.inl rfl)⟩

/-- Claim C8, counterexample: at the exact X-Y tie `(1, 1, 0)` the claimed
X-over-Y priority would give `(1, 0, 0)`, but both strict-dominance
branches fail and the code falls through to the Z branch, returning
`(0, 0, -1)` (the zero Z component is mapped to sign `-1`). -/
theorem dominantAxis_tie_prefers_z :
    dominantAxis ⟨1, 1, 0⟩ = ⟨0, 0, -1⟩ ∧
    dominantAxis ⟨1, 1, 0⟩ ≠ ⟨1, 0, 0⟩ := by
  with_unfolding_all decide

/-- Claim C8, amended: when one axis strictly dominates the other two in
absolute value the snapped normal is that axis with the component's
sign, but ties are not broken toward X: any X-Y tie, and any case where
Z attains the maximum, falls through to the Z branch `(0, 0, sign z)`
with a nonpositive component mapped to `-1`. -/
theorem dominantAxis_strict_and_tie (v : Pos) :
    (|v.y| < |v.x| ∧ |v.z| < |v.x| →
      dominantAxis v = ⟨if v.x > 0 then 1 else -1, 0, 0⟩) ∧
    (|v.x| < |v.y| ∧ |v.z| < |v.y| →
      dominantAxis v = ⟨0, if v.y > 0 then 1 else -1, 0⟩) ∧
    (|v.x| = |v.y| →
      dominantAxis v = ⟨0, 0, if v.z > 0 then 1 else -1⟩) ∧
    (|v.x| ≤ |v.z| ∧ |v.y| ≤ |v.z| →
      dominantAxis v = ⟨0, 0, if v.z > 0 then 1 else -1⟩) := by
  refine ⟨?_, ?_, ?_, ?_⟩ <;> intro h <;> rw [dominantAxis]
  · rw [if_pos ⟨h.1, h.2⟩]
  · rw [if_neg, if_pos ⟨h.1, h.2⟩]
    rintro ⟨h1, -⟩
    exact absurd h1 (not_lt.mpr (le_of_lt h.1))
  · rw [if_neg, if_neg]
    · rintro ⟨h1, -⟩
      exact absurd h1 (not_lt.mpr h.ge)
    · rintro ⟨h1, -⟩
      exact absurd h1 (not_lt.mpr h.le)
  · rw [if_neg, if_neg]
    · rintro ⟨-, h2⟩
      exact absurd h2 (not_lt.mpr h.2)
    · rintro ⟨-, h2⟩
      exact absurd h2 (not_lt.mpr h.1)

/-- Claim C8, witness: strict dominance of the X axis on `(-3, 2, 1)`
yields the negative X unit normal. -/
theorem dominantAxis_strict_and_tie_witness :
    (|(2 : ℚ)| < |(-3 : ℚ)| ∧ |(1 : ℚ)| < |(-3 : ℚ)|) ∧
    dominantAxis ⟨-3, 2, 1⟩ = ⟨-1, 0, 0⟩ := by
  refine ⟨by norm_num, ?_⟩
  have h := (dominantAxis_strict_and_tie ⟨-3, 2, 1⟩).1 (by norm_num)
  norm_num at h
  exact h

/-- Claim C9: a push-pull with positive quantized distance keeps every
pre-existing voxel (with its exact position and color) in the resulting
list, and one with negative quantized distance produces a list whose
every voxel already existed — extrusion only appends and retraction only
removes. -/
theorem pushPull_frame_property (n : Pos) (d : ℚ) (s : StoreState) :
    (0 < jround (d / (3 / 10)) →
      ∀ v ∈ s.voxels, v ∈ (pushPullFace n d s).voxels) ∧
    (jround (d / (3 / 10)) < 0 →
      ∀ v ∈ (pushPullFace n d s).voxels, v ∈ s.voxels) := by
  obtain ⟨vx, hov, sel⟩ := s
  constructor
  · intro hpos v hv
    rw [pushPullFace]
    dsimp only at hv ⊢
    have hposq : (0 : ℚ) < (jround (d / (3 / 10)) : ℚ) * (3 / 10) := by
      have hc : (0 : ℚ) < (jround (d / (3 / 10)) : ℚ) := by exact_mod_cast hpos
      exact mul_pos hc (by norm_num)
    rw [if_neg (ne_of_gt hposq)]
    cases sel with
    | none => cases hov <;> exact hv
    | some face =>
      cases hov with
      | none => exact hv
      | some hovered =>
        dsimp only
        split
        · exact hv
        · exact List.mem_append_left _ hv
  · intro hneg v hv
    rw [pushPullFace] at hv
    dsimp only at hv ⊢
    have hnegq : (jround (d / (3 / 10)) : ℚ) * (3 / 10) < 0 := by
      have hc : (jround (d / (3 / 10)) : ℚ) < 0 := by exact_mod_cast hneg
      exact mul_neg_of_neg_of_pos hc (by norm_num)
    rw [if_neg (ne_of_lt hnegq)] at hv
    cases sel with
    | none => cases hov <;> exact hv
    | some face =>
      cases hov with
      | none => exact hv
      | some hovered =>
        dsimp only at hv
        split at hv
        · exact hv
        · split at hv
          · next hcon => exact absurd hcon (not_lt.mpr (le_of_lt hnegq))
          · split at hv
            · exact hv
            · exact (List.mem_filter.mp hv).1

/-- Claim C9, witness: the one-layer platform extrusion keeps all four
platform voxels in the result. -/
theorem pushPull_frame_property_witness :
    0 < jround ((3 / 10 : ℚ) / (3 / 10)) ∧
    ∀ v ∈ extrudeScenarioState.voxels,
      v ∈ (pushPullFace ⟨0, 1, 0⟩ (3 / 10) extrudeScenarioState).voxels :=
  ⟨by with_unfolding_all decide,
    (pushPull_frame_property ⟨0, 1, 0⟩ (3 / 10) extrudeScenarioState).1
      (by with_unfolding_all decide)⟩

/-- Claim C10: `addVoxel` tests occupancy by exact component-wise
equality, so a candidate whose position differs from every stored
position — by any nonzero amount, even below the `u/30` epsilon — is
appended. -/
theorem addVoxel_exact_equality_occupancy (v : Voxel) (s : StoreState)
    (h : ∀ w ∈ s.voxels, w.position ≠ v.position) :
    addVoxel v s = { s with voxels := s.voxels ++ [v] } := by
  rw [addVoxel, if_neg]
  intro hc
  obtain ⟨w, hw, hsame⟩ := List.any_eq_true.mp hc
  exact h w hw (isSamePosition_iff.mp hsame)

/-- Claim C10, witness: the position `(0.001, 0, 0)` is within the
`0.01` epsilon of the occupied cell `(0,0,0)` (so `nearPos` holds) yet
differs exactly, and `addVoxel` inserts it. -/
theorem addVoxel_exact_equality_occupancy_witness :
    (∀ w ∈ initialState.voxels, w.position ≠ (⟨1 / 1000, 0, 0⟩ : Pos)) ∧
    nearPos ⟨1 / 1000, 0, 0⟩ ⟨0, 0, 0⟩ = true ∧
    addVoxel ⟨⟨1 / 1000, 0, 0⟩, "#abcdef"⟩ initialState =
      { initialState with voxels :=
          initialState.voxels ++ [⟨⟨1 / 1000, 0, 0⟩, "#abcdef"⟩] } :=
  ⟨by with_unfolding_all decide,
    by with_unfolding_all decide,
    addVoxel_exact_equality_occupancy ⟨⟨1 / 1000, 0, 0⟩, "#abcdef"⟩
      initialState (by with_unfolding_all decide)⟩

end VoxelBuilder
